import Mathlib

/-!
Verification of the mkulima_ai image-to-diagnosis inference pipeline.

This file gives a shallow embedding, in Lean 4, of the algorithmic core of the
repository:

* `backend/services/disease_predictor.py` — `DiseasePredictor.predict`,
  `estimate_severity`, `get_severity_description`,
  `get_treatment_recommendations`, `find_similar_cases`, `is_ready`;
* `backend/utils/validators.py` — `validate_image_file`;
* `backend/services/image_processor.py` — `ImageProcessor.remove_background`.

Python floats are embedded as rationals (`ℚ`), uint8 channel values as `Nat`,
numpy arrays as nested lists, Python dicts as association lists, and Python
exceptions as `Except` error values.  External library calls whose results the
code merely consumes (`python-magic` mime sniffing, PIL decoding, the TFLite
interpreter forward pass) are represented as oracle fields/functions carried by
the embedded state; everything downstream of those calls is translated
statement by statement from the source.
-/

/-! ## Severity estimation (`DiseasePredictor.estimate_severity`) -/

/-- A pixel: an (R, G, B) channel triple, each channel a uint8 value. -/
abbrev Pix := Nat × Nat × Nat

/-- A numpy image array: rows of pixels. -/
abbrev Img := List (List Pix)

/-- Result dict of `DiseasePredictor.estimate_severity`. -/
structure Severity where
  level : String
  affected_area_percentage : ℚ
  description : String
  action_required : Bool
  deriving DecidableEq, Repr

/-- `DiseasePredictor.get_severity_description`: dict lookup with a default. -/
def get_severity_description (level : String) : String :=
  if level = "low" then "Early stage infection. Monitor regularly."
  else if level = "medium" then "Moderate infection. Treatment recommended."
  else if level = "high" then "Severe infection. Immediate treatment required."
  else "Unknown severity level."

/-- `DiseasePredictor.estimate_severity(image, disease, confidence)`.
The `image` and `disease` arguments are unused by the source body; the level is
a pure function of `confidence`, the affected area is `min(confidence*100, 95)`
and `action_required` is `severity_level in ['medium', 'high']`. -/
def estimate_severity (image : Img) (disease : String) (confidence : ℚ) : Severity :=
  let severity_level : String :=
    if confidence > mkRat 8 10 then "high"
    else if confidence > mkRat 6 10 then "medium"
    else "low"
  { level := severity_level
    affected_area_percentage := min (confidence * 100) 95
    description := get_severity_description severity_level
    action_required := (["medium", "high"]).contains severity_level }

/-! ## Treatment recommendations (`get_treatment_recommendations`) -/

/-- A treatment entry: a Python dict embedded as an association list. -/
abbrev Treatment := List (String × String)

/-- The static `treatments_db` mapping of `get_treatment_recommendations`. -/
def treatments_db : List (String × List Treatment) :=
  [("tomato_early_blight",
    [[("type", "chemical"),
      ("name", "Chlorothalonil"),
      ("dosage", "Apply 1-2 lbs per acre"),
      ("frequency", "Every 7-10 days"),
      ("safety", "Wear protective equipment"),
      ("organic_alternative", "Copper-based fungicides")],
     [("type", "cultural"),
      ("name", "Crop rotation"),
      ("description", "Rotate with non-solanaceous crops"),
      ("effectiveness", "High")]]),
   ("maize_rust",
    [[("type", "chemical"),
      ("name", "Triazole fungicides"),
      ("dosage", "Apply as per manufacturer instructions"),
      ("frequency", "At first sign of disease"),
      ("safety", "Follow label instructions")]])]

/-- The generic fallback entry built for a disease absent from `treatments_db`. -/
def genericFallback (disease : String) : Treatment :=
  [("type", "general"),
   ("name", "Consult agricultural expert"),
   ("description", "No specific treatment found for " ++ disease ++
      ". Please consult local agricultural extension officer."),
   ("contact", "Call 0111-222-333 for expert advice")]

/-- `DiseasePredictor.get_treatment_recommendations(disease)`. -/
def get_treatment_recommendations (disease : String) : List Treatment :=
  match treatments_db.lookup disease with
  | some ts => ts
  | none => [genericFallback disease]

/-- `DiseasePredictor.find_similar_cases(disease, limit)`: returns static
sample data, ignoring both arguments (the body does not read them). -/
def find_similar_cases (disease : String) (limit : Nat) : List (List (String × String)) :=
  [[("case_id", "case_001"),
    ("location", "Central Province"),
    ("date", "2023-10-15"),
    ("severity", "medium"),
    ("treatment_applied", "Copper fungicide"),
    ("outcome", "Recovered")],
   [("case_id", "case_002"),
    ("location", "Rift Valley"),
    ("date", "2023-09-22"),
    ("severity", "high"),
    ("treatment_applied", "Systemic fungicide"),
    ("outcome", "Partial recovery")]]

/-! ## Upload validation (`backend/utils/validators.py`) -/

/-- `ALLOWED_MIME_TYPES` from `validators.py`. -/
def ALLOWED_MIME_TYPES : List String :=
  ["image/jpeg", "image/png", "image/gif", "image/bmp", "image/webp"]

/-- `ALLOWED_EXTENSIONS` from `validators.py`. -/
def ALLOWED_EXTENSIONS : List String :=
  [".jpg", ".jpeg", ".png", ".gif", ".bmp", ".webp"]

/-- Python `str.lower`, character by character. -/
def strLower (s : String) : String :=
  ⟨s.data.map Char.toLower⟩

/-- Python `str.endswith`, on the character lists of the strings. -/
def strEndsWith (s suffix : String) : Bool :=
  suffix.data.isSuffixOf s.data

/-- The extension test of `validate_image_file`:
`any(filename.endswith(ext) for ext in ALLOWED_EXTENSIONS)` applied to the
lower-cased filename. -/
def hasAllowedExt (filename : String) : Bool :=
  ALLOWED_EXTENSIONS.any (fun ext => strEndsWith (strLower filename) ext)

/-- An uploaded file as `validate_image_file` observes it.  The two external
library calls are carried as oracle fields: `detectedMime` is the result of
`magic.from_buffer(content[:2048], mime=True)` and `decoded` is the outcome of
`PIL.Image.open(...)` + `verify()` — either the image's `(width, height)` or
the message of the exception raised.  `byteSize` is the length of the byte
buffer, which is what the seek-to-end/`tell` sequence in the source computes. -/
structure UploadedFile where
  filename : String
  detectedMime : String
  decoded : Except String (Nat × Nat)
  byteSize : Nat

/-- Result dict of `validate_image_file`: always `valid` and `message`, and on
success additionally `mime_type`, `dimensions` and `file_size`. -/
structure ValidationResult where
  valid : Bool
  message : String
  mime_type : Option String := none
  dimensions : Option (Nat × Nat) := none
  file_size : Option Nat := none
  deriving DecidableEq, Repr

/-- `validate_image_file(image_file)`, with the checks in source order:
empty filename, extension allow-list, mime allow-list, PIL open/verify,
minimum dimensions, maximum dimensions, and finally the 16 MiB size cap. -/
def validate_image_file (f : UploadedFile) : ValidationResult :=
  if f.filename = "" then
    { valid := false, message := "No image file selected" }
  else if hasAllowedExt f.filename = false then
    { valid := false
      message := "File type not allowed. Allowed types: .jpg, .jpeg, .png, .gif, .bmp, .webp" }
  else if ALLOWED_MIME_TYPES.contains f.detectedMime = false then
    { valid := false, message := "Invalid file type: " ++ f.detectedMime }
  else
    match f.decoded with
    | Except.error e =>
        { valid := false, message := "Invalid image file: " ++ e }
    | Except.ok (width, height) =>
        if width < 100 ∨ height < 100 then
          { valid := false, message := "Image too small. Minimum size: 100x100 pixels" }
        else if 5000 < width ∨ 5000 < height then
          { valid := false, message := "Image too large. Maximum size: 5000x5000 pixels" }
        else if 16 * 1024 * 1024 < f.byteSize then
          { valid := false, message := "File too large. Maximum size: 16MB" }
        else
          { valid := true
            message := "Image file is valid"
            mime_type := some f.detectedMime
            dimensions := some (width, height)
            file_size := some f.byteSize }

/-- The empty filename has no allowed extension (all allowed extensions are
nonempty strings). -/
theorem hasAllowedExt_empty : hasAllowedExt "" = false := by decide

/-! ## Model adapter (`DiseasePredictor.predict` and `is_ready`)

The TFLite interpreter call (`set_tensor`/`invoke`/`get_tensor`, together with
`preprocess_image`) is abstracted as an oracle function `Img → List ℚ` stored
in the `model` field: it returns the per-label score vector `predictions[0]`.
Everything after that call is translated from the source. -/

/-- `scores[i]` as numpy reads it (all indices used below are in range). -/
def val (scores : List ℚ) (i : Nat) : ℚ := scores.getD i 0

/-- `np.argmax(predictions[0])`: the first index holding the maximal value. -/
def argmax (scores : List ℚ) : Nat :=
  scores.findIdx (fun x => scores.all (fun y => decide (y ≤ x)))

/-- The index order used by the embedded argsort: ascending by score and,
between equal scores, ascending by original index.  numpy's default
`np.argsort` (introsort) guarantees no particular order between equal
scores — it runs a stable insertion sort only on vectors shorter than its
16-element threshold — so the tie clause here merely fixes a definite order
to make the embedded ranking a total function.  General theorems below
therefore state only tie-order-invariant conclusions (true under any correct
ascending sort), and tie-order-sensitive behaviour is exhibited only on
length-2 vectors, where numpy's sort provably is the stable insertion
sort. -/
def idxLe (scores : List ℚ) (i j : Nat) : Prop :=
  val scores i < val scores j ∨ (val scores i = val scores j ∧ i ≤ j)

instance (scores : List ℚ) (i j : Nat) : Decidable (idxLe scores i j) :=
  inferInstanceAs (Decidable (_ ∨ _))

instance (scores : List ℚ) : IsTotal Nat (idxLe scores) where
  total i j := by
    rcases lt_trichotomy (val scores i) (val scores j) with h | h | h
    · exact Or.inl (Or.inl h)
    · rcases Nat.le_total i j with hij | hij
      · exact Or.inl (Or.inr ⟨h, hij⟩)
      · exact Or.inr (Or.inr ⟨h.symm, hij⟩)
    · exact Or.inr (Or.inl h)

instance (scores : List ℚ) : IsTrans Nat (idxLe scores) where
  trans i j k := by
    rintro (h₁ | ⟨h₁, h₁'⟩) (h₂ | ⟨h₂, h₂'⟩)
    · exact Or.inl (h₁.trans h₂)
    · exact Or.inl (h₂ ▸ h₁)
    · exact Or.inl (h₁ ▸ h₂)
    · exact Or.inr ⟨h₁.trans h₂, h₁'.trans h₂'⟩

/-- `np.argsort(predictions[0])`: label indices in ascending score order,
with the definite tie order described at `idxLe`. -/
def argsortAsc (scores : List ℚ) : List Nat :=
  List.insertionSort (idxLe scores) (List.range scores.length)

/-- `np.argsort(predictions[0])[-3:][::-1]`: the (up to) three best label
indices, best first. -/
def topIndices (scores : List ℚ) : List Nat :=
  ((argsortAsc scores).drop ((argsortAsc scores).length - 3)).reverse

/-- One entry of the `top_predictions` list. -/
structure TopPred where
  disease : String
  confidence : ℚ
  rank : Nat
  deriving DecidableEq, Repr

/-- The `top_predictions` list comprehension: `some` when every ranked index
is a valid position in `labels`, `none` when `self.labels[i]` would raise
`IndexError`. -/
def topEntries (labels : List String) (scores : List ℚ) : Option (List TopPred) :=
  if h : ∀ i ∈ topIndices scores, i < labels.length then
    some ((topIndices scores).enum.map
      (fun p => { disease := labels.getD p.2 ""
                  confidence := val scores p.2
                  rank := p.1 + 1 }))
  else none

/-- The ways the embedded `predict` can fail, one constructor per distinct
Python exception: `ValueError('Model not loaded. Call load_model() first.')`;
the `ValueError` that `np.argmax` raises on an empty vector; the `IndexError`
raised by `self.labels[i]` (the `except` clause re-raises all of them). -/
inductive PredictError where
  | modelNotLoaded
  | emptyOutput
  | labelIndexError
  deriving DecidableEq, Repr

/-- State of a `DiseasePredictor` instance: the (optionally loaded) model and
the label list. -/
structure DiseasePredictor where
  model : Option (Img → List ℚ)
  labels : List String

/-- `DiseasePredictor.is_ready`:
`self.model is not None and len(self.labels) > 0`. -/
def is_ready (p : DiseasePredictor) : Bool :=
  p.model.isSome && decide (0 < p.labels.length)

/-- The dict returned by a successful `DiseasePredictor.predict`; `timestamp`
is the wall-clock reading `tf.timestamp()`, passed in as `now`. -/
structure PredictResult where
  disease_name : String
  confidence : ℚ
  severity : Severity
  top_predictions : List TopPred
  recommendations : List Treatment
  similar_cases : List (List (String × String))
  timestamp : ℚ
  deriving DecidableEq, Repr

/-- `DiseasePredictor.predict(image)`. -/
def predict (p : DiseasePredictor) (image : Img) (now : ℚ) :
    Except PredictError PredictResult :=
  match p.model with
  | none => Except.error PredictError.modelNotLoaded
  | some interp =>
    let scores := interp image
    if scores.isEmpty then Except.error PredictError.emptyOutput
    else
      let top_index := argmax scores
      let confidence := val scores top_index
      match p.labels.get? top_index with
      | none => Except.error PredictError.labelIndexError
      | some disease_name =>
        match topEntries p.labels scores with
        | none => Except.error PredictError.labelIndexError
        | some top_predictions =>
          Except.ok
            { disease_name := disease_name
              confidence := confidence
              severity := estimate_severity image disease_name confidence
              top_predictions := top_predictions
              recommendations := get_treatment_recommendations disease_name
              similar_cases := find_similar_cases disease_name 5
              timestamp := now }

/-! ## Background removal (`ImageProcessor.remove_background`)

`remove_background` chains OpenCV primitives; each is embedded below on
nested-list grids.  Conventions taken from OpenCV:

* `cv2.morphologyEx(..., np.ones((5,5),np.uint8))`: the 5×5 all-ones kernel is
  anchored at its centre; with the default `borderValue`
  (`morphologyDefaultBorderValue()`), out-of-image samples count as `+inf` for
  erosion and `-inf` for dilation, i.e. `255` and `0` for a uint8 mask;
* `cv2.inRange` produces a uint8 mask with values `0`/`255`;
* `cv2.bitwise_and(x, x, mask=m)` keeps `x` (as `x AND x = x`) where the mask
  is nonzero and writes zeros elsewhere; `cv2.bitwise_not` on uint8 is
  `255 - x`; `cv2.add` saturates each uint8 channel at `255`;
* `cv2.cvtColor(..., cv2.COLOR_RGB2HSV)` follows the documented 8-bit formula
  `V = max, S = 255*(V-min)/V, H = (60*(...)/(V-min))/2`, rounded to the
  nearest integer.
-/

/-- A uint8 mask: rows of channel values. -/
abbrev Mask := List (List Nat)

/-- Build an `h × w` grid from an entry function. -/
def gridOf (h w : Nat) (f : Nat → Nat → α) : List (List α) :=
  (List.range h).map (fun r => (List.range w).map (fun c => f r c))

/-- Number of columns of a grid (length of its first row). -/
def gridWidth (g : List (List α)) : Nat := (g.headD []).length

/-- Read a mask entry at a (possibly out-of-image) position, with border
value `d`. -/
def mget (m : Mask) (d : Nat) (r c : Int) : Nat :=
  if 0 ≤ r ∧ 0 ≤ c then (m.getD r.toNat []).getD c.toNat d else d

/-- Offsets covered by the 5×5 all-ones kernel, per axis (anchor at centre). -/
def kernelOffsets : List Int := [-2, -1, 0, 1, 2]

/-- The 25 mask samples under the kernel centred at `(r, c)`, using border
value `d` for samples outside the image. -/
def windowVals (m : Mask) (d : Nat) (r c : Nat) : List Nat :=
  kernelOffsets.flatMap
    (fun dr => kernelOffsets.map (fun dc => mget m d ((r : Int) + dr) ((c : Int) + dc)))

/-- `cv2.dilate` with the 5×5 kernel: window maximum, border value 0. -/
def cvDilate (m : Mask) : Mask :=
  gridOf m.length (gridWidth m) (fun r c => (windowVals m 0 r c).foldl Nat.max 0)

/-- `cv2.erode` with the 5×5 kernel: window minimum, border value 255. -/
def cvErode (m : Mask) : Mask :=
  gridOf m.length (gridWidth m) (fun r c => (windowVals m 255 r c).foldl Nat.min 255)

/-- `cv2.morphologyEx(mask, cv2.MORPH_CLOSE, kernel)`: dilate then erode. -/
def morphClose (m : Mask) : Mask := cvErode (cvDilate m)

/-- `cv2.morphologyEx(mask, cv2.MORPH_OPEN, kernel)`: erode then dilate. -/
def morphOpen (m : Mask) : Mask := cvDilate (cvErode m)

/-- Round-to-nearest of the exact ratio `a / b` (with `b > 0`), computed in
integer arithmetic: `round(a/b) = ⌊(2a+b)/(2b)⌋` (floor division).  All ratios
rounded by the HSV conversion are nonnegative, so the result is a `Nat`. -/
def roundRatio (a : Int) (b : Nat) : Nat :=
  (Int.ediv (2 * a + b) (2 * b)).toNat

/-- One pixel of `cv2.cvtColor(image, cv2.COLOR_RGB2HSV)` for uint8 data, per
the documented formula: `V = max(R,G,B)`; `S = round(255*(V-min)/V)` (0 when
`V = 0`); `H` from the 60°-sector formula over `V-min`, `+360°` if negative,
then halved (`round(H/2)`) to fit uint8.  The exact rational arithmetic is
carried out on numerator/denominator pairs via `roundRatio`: the sector value
is the ratio `hnum / diff`, so the emitted hue is `round(hnum / (2*diff))`. -/
def rgb2hsv (p : Pix) : Pix :=
  let r := p.1
  let g := p.2.1
  let b := p.2.2
  let v : Nat := Nat.max r (Nat.max g b)
  let mn : Nat := Nat.min r (Nat.min g b)
  let s : Nat := if v = 0 then 0 else roundRatio (255 * ((v : Int) - (mn : Int))) v
  let diff : Nat := v - mn
  let hnum : Int :=
    if v = r then 60 * ((g : Int) - (b : Int))
    else if v = g then 120 * (diff : Int) + 60 * ((b : Int) - (r : Int))
    else 240 * (diff : Int) + 60 * ((r : Int) - (g : Int))
  let hnum : Int := if hnum < 0 then hnum + 360 * (diff : Int) else hnum
  let h : Nat := if v = mn then 0 else roundRatio hnum (2 * diff)
  (h, s, v)

/-- Pixelwise RGB→HSV conversion of a whole image. -/
def cvtColorRGB2HSV (img : Img) : Img := img.map (List.map rgb2hsv)

/-- `lower_green = np.array([35, 40, 40])`. -/
def lower_green : Pix := (35, 40, 40)

/-- `upper_green = np.array([85, 255, 255])`. -/
def upper_green : Pix := (85, 255, 255)

/-- One pixel of `cv2.inRange`: 255 when every channel lies inside the bounds,
0 otherwise. -/
def inRangePix (lo hi p : Pix) : Nat :=
  if lo.1 ≤ p.1 ∧ p.1 ≤ hi.1 ∧ lo.2.1 ≤ p.2.1 ∧ p.2.1 ≤ hi.2.1 ∧
      lo.2.2 ≤ p.2.2 ∧ p.2.2 ≤ hi.2.2 then 255 else 0

/-- `cv2.inRange(hsv, lower, upper)`. -/
def cvInRange (img : Img) (lo hi : Pix) : Mask := img.map (List.map (inRangePix lo hi))

/-- Read a pixel (in-image positions only; default black). -/
def pget (img : Img) (r c : Nat) : Pix := (img.getD r []).getD c (0, 0, 0)

/-- `cv2.bitwise_and(x, x, mask=m)`: since `x AND x = x`, this copies `x`
where the mask is nonzero and writes zeros elsewhere. -/
def maskedCopy (src : Img) (m : Mask) : Img :=
  gridOf src.length (gridWidth src)
    (fun r c => if mget m 0 (r : Int) (c : Int) ≠ 0 then pget src r c else ((0, 0, 0) : Pix))

/-- `cv2.bitwise_not` on a uint8 mask: `255 - x`. -/
def bitwiseNot (m : Mask) : Mask := m.map (List.map (fun x => 255 - x))

/-- `np.ones_like(image) * 255`: an all-white image of the same shape. -/
def whiteLike (img : Img) : Img := img.map (List.map (fun _ => ((255, 255, 255) : Pix)))

/-- `cv2.add`: per-channel addition saturating at 255. -/
def cvAdd (a b : Img) : Img :=
  gridOf a.length (gridWidth a)
    (fun r c =>
      (Nat.min ((pget a r c).1 + (pget b r c).1) 255,
       Nat.min ((pget a r c).2.1 + (pget b r c).2.1) 255,
       Nat.min ((pget a r c).2.2 + (pget b r c).2.2) 255))

/-- The mask pipeline of `remove_background`: green-range test in HSV space,
then morphological close and open (the successive reassignments of the `mask`
variable in the source). -/
def foliageMask (image : Img) : Mask :=
  morphOpen (morphClose (cvInRange (cvtColorRGB2HSV image) lower_green upper_green))

/-- `ImageProcessor.remove_background(image)`: green-range mask in HSV space,
morphological close then open, masked copy of the foliage, white background
composite. -/
def remove_background (image : Img) : Img :=
  let hsv := cvtColorRGB2HSV image
  let mask := cvInRange hsv lower_green upper_green
  let mask := morphClose mask
  let mask := morphOpen mask
  let result := maskedCopy image mask
  let white_bg := whiteLike image
  let white_bg := maskedCopy white_bg (bitwiseNot mask)
  cvAdd result white_bg

/-! ## Claims about severity estimation -/

/-- The kernel-computable threshold literal `mkRat 8 10` is the rational 0.8. -/
theorem mkRat_8_10 : mkRat 8 10 = 8/10 := by
  norm_num [mkRat, Rat.normalize]

/-- The kernel-computable threshold literal `mkRat 6 10` is the rational 0.6. -/
theorem mkRat_6_10 : mkRat 6 10 = 6/10 := by
  norm_num [mkRat, Rat.normalize]

/-- C1: for every top-1 confidence value `c`, `estimate_severity` yields level
`"high"` iff `c > 0.8`, `"medium"` iff `0.6 < c ≤ 0.8`, `"low"` otherwise
(exhaustive and non-overlapping), and `action_required` is true exactly when
the level is `"medium"` or `"high"`. -/
theorem estimate_severity_level_spec (image : Img) (disease : String) (c : ℚ) :
    ((estimate_severity image disease c).level = "high" ↔ 8/10 < c) ∧
    ((estimate_severity image disease c).level = "medium" ↔ 6/10 < c ∧ c ≤ 8/10) ∧
    ((estimate_severity image disease c).level = "low" ↔
      ¬ (8/10 < c) ∧ ¬ (6/10 < c ∧ c ≤ 8/10)) ∧
    ((estimate_severity image disease c).action_required = true ↔
      (estimate_severity image disease c).level = "medium" ∨
      (estimate_severity image disease c).level = "high") := by
  by_cases h1 : c > 8/10
  · have e : estimate_severity image disease c =
        { level := "high"
          affected_area_percentage := min (c * 100) 95
          description := "Severe infection. Immediate treatment required."
          action_required := true } := by
      simp only [estimate_severity, mkRat_8_10, mkRat_6_10]
      rw [if_pos h1]
      rfl
    have h2 : ¬ c ≤ 8/10 := not_le.mpr h1
    rw [e]
    simp [h1, h2]
  · by_cases h2 : c > 6/10
    · have e : estimate_severity image disease c =
          { level := "medium"
            affected_area_percentage := min (c * 100) 95
            description := "Moderate infection. Treatment recommended."
            action_required := true } := by
        simp only [estimate_severity, mkRat_8_10, mkRat_6_10]
        rw [if_neg h1, if_pos h2]
        rfl
      rw [e]
      simp [h1, h2, not_lt.mp h1]
    · have e : estimate_severity image disease c =
          { level := "low"
            affected_area_percentage := min (c * 100) 95
            description := "Early stage infection. Monitor regularly."
            action_required := false } := by
        simp only [estimate_severity, mkRat_8_10, mkRat_6_10]
        rw [if_neg h1, if_neg h2]
        rfl
      rw [e]
      simp [h1, h2]

/-- C1 witness: at confidence 0.9 the severity level is `"high"`. -/
theorem estimate_severity_level_spec_witness :
    (estimate_severity [] "maize_rust" (9/10)).level = "high" :=
  (estimate_severity_level_spec [] "maize_rust" (9/10)).1.mpr (by norm_num)

/-- C2: `affected_area_percentage` equals `min(confidence*100, 95)` for every
confidence value, and for confidence in `[0, 1]` it lies in `[0, 95]`. -/
theorem affected_area_spec (image : Img) (disease : String) (c : ℚ) :
    (estimate_severity image disease c).affected_area_percentage = min (c * 100) 95 ∧
    (0 ≤ c → c ≤ 1 →
      0 ≤ (estimate_severity image disease c).affected_area_percentage ∧
      (estimate_severity image disease c).affected_area_percentage ≤ 95) := by
  refine ⟨by simp [estimate_severity], fun h0 _ => ?_⟩
  simp only [estimate_severity]
  exact ⟨le_min (by positivity) (by norm_num), min_le_right _ _⟩

/-- C2 witness: at confidence 0.5 the affected area is `min(50, 95) = 50` and
lies in `[0, 95]`. -/
theorem affected_area_spec_witness :
    (estimate_severity [] "maize_rust" (1/2)).affected_area_percentage
        = min ((1/2 : ℚ) * 100) 95 ∧
    0 ≤ (estimate_severity [] "maize_rust" (1/2)).affected_area_percentage ∧
    (estimate_severity [] "maize_rust" (1/2)).affected_area_percentage ≤ 95 :=
  ⟨(affected_area_spec [] "maize_rust" (1/2)).1,
   (affected_area_spec [] "maize_rust" (1/2)).2 (by norm_num) (by norm_num)⟩

/-! ## Claims about upload validation -/

/-- C7: an upload with an allowed extension, an allowed detected mime type, a
successful decode with both dimensions in `[100, 5000]`, and byte size at most
16 MiB is accepted, and the result reports the detected mime type, the
dimensions and the byte size. -/
theorem validate_accepts_valid_images (f : UploadedFile) (w h : Nat)
    (hext : hasAllowedExt f.filename = true)
    (hmime : ALLOWED_MIME_TYPES.contains f.detectedMime = true)
    (hdec : f.decoded = Except.ok (w, h))
    (hw1 : 100 ≤ w) (hw2 : w ≤ 5000) (hh1 : 100 ≤ h) (hh2 : h ≤ 5000)
    (hsz : f.byteSize ≤ 16 * 1024 * 1024) :
    validate_image_file f =
      { valid := true
        message := "Image file is valid"
        mime_type := some f.detectedMime
        dimensions := some (w, h)
        file_size := some f.byteSize } := by
  have hne : ¬ f.filename = "" := fun h0 => by
    rw [h0, hasAllowedExt_empty] at hext
    exact Bool.false_ne_true hext
  unfold validate_image_file
  rw [if_neg hne, hext, if_neg (show ¬ (true = false) from by decide), hmime,
    if_neg (show ¬ (true = false) from by decide)]
  simp only [hdec]
  rw [if_neg (by omega), if_neg (by omega), if_neg (by omega)]

/-- C7 witness: a 224×224 JPEG of 50000 bytes is accepted. -/
theorem validate_accepts_valid_images_witness :
    validate_image_file
        { filename := "leaf.jpg", detectedMime := "image/jpeg",
          decoded := Except.ok (224, 224), byteSize := 50000 } =
      { valid := true
        message := "Image file is valid"
        mime_type := some "image/jpeg"
        dimensions := some (224, 224)
        file_size := some 50000 } :=
  validate_accepts_valid_images
    { filename := "leaf.jpg", detectedMime := "image/jpeg",
      decoded := Except.ok (224, 224), byteSize := 50000 }
    224 224 (by decide) (by decide) rfl (by decide) (by decide) (by decide) (by decide)
    (by decide)

/-- C8 counterexample: a 20 MiB PNG upload that passes the extension and mime
checks but fails PIL decoding is rejected with the decode reason, not the
"too large" reason — `validate_image_file` attempts the decode before it ever
looks at the byte size, so the claim's "too large before decode" behaviour
does not hold. -/
theorem validate_oversized_undecodable_cex :
    validate_image_file
        { filename := "big.png", detectedMime := "image/png",
          decoded := Except.error "cannot identify image file",
          byteSize := 20 * 1024 * 1024 } =
      { valid := false, message := "Invalid image file: cannot identify image file" } ∧
    (validate_image_file
        { filename := "big.png", detectedMime := "image/png",
          decoded := Except.error "cannot identify image file",
          byteSize := 20 * 1024 * 1024 }).message ≠
      "File too large. Maximum size: 16MB" := by
  constructor
  · decide
  · decide

/-- C8 amended: an upload larger than 16 MiB that passes the extension and
mime checks **and additionally decodes with dimensions inside `[100, 5000]²`**
is rejected with the "too large" reason; the size check runs after the
decode/verify step and the dimension checks, so an oversized buffer that fails
to decode gets the decode reason instead. -/
theorem validate_oversized_after_decode (f : UploadedFile) (w h : Nat)
    (hext : hasAllowedExt f.filename = true)
    (hmime : ALLOWED_MIME_TYPES.contains f.detectedMime = true)
    (hdec : f.decoded = Except.ok (w, h))
    (hw1 : 100 ≤ w) (hw2 : w ≤ 5000) (hh1 : 100 ≤ h) (hh2 : h ≤ 5000)
    (hsz : 16 * 1024 * 1024 < f.byteSize) :
    validate_image_file f =
      { valid := false, message := "File too large. Maximum size: 16MB" } := by
  have hne : ¬ f.filename = "" := fun h0 => by
    rw [h0, hasAllowedExt_empty] at hext
    exact Bool.false_ne_true hext
  unfold validate_image_file
  rw [if_neg hne, hext, if_neg (show ¬ (true = false) from by decide), hmime,
    if_neg (show ¬ (true = false) from by decide)]
  simp only [hdec]
  rw [if_neg (by omega), if_neg (by omega), if_pos (by omega)]

/-- C8 amended witness: a well-formed 2000×2000 PNG of 20 MiB is rejected as
too large. -/
theorem validate_oversized_after_decode_witness :
    validate_image_file
        { filename := "big.png", detectedMime := "image/png",
          decoded := Except.ok (2000, 2000), byteSize := 20 * 1024 * 1024 } =
      { valid := false, message := "File too large. Maximum size: 16MB" } :=
  validate_oversized_after_decode
    { filename := "big.png", detectedMime := "image/png",
      decoded := Except.ok (2000, 2000), byteSize := 20 * 1024 * 1024 }
    2000 2000 (by decide) (by decide) rfl (by decide) (by decide) (by decide) (by decide)
    (by decide)

/-! ## Claims about recommendation lookup -/

/-- C9: a disease label absent from `treatments_db` yields exactly the one
generic fallback entry — a singleton list, never empty and never a failure
(the lookup is a total function). -/
theorem unknown_disease_single_fallback (disease : String)
    (h : treatments_db.lookup disease = none) :
    get_treatment_recommendations disease = [genericFallback disease] ∧
    (get_treatment_recommendations disease).length = 1 := by
  unfold get_treatment_recommendations
  rw [h]
  exact ⟨rfl, rfl⟩

/-- C9 witness: the unknown label `"banana_wilt"` gets the single fallback. -/
theorem unknown_disease_single_fallback_witness :
    get_treatment_recommendations "banana_wilt" = [genericFallback "banana_wilt"] ∧
    (get_treatment_recommendations "banana_wilt").length = 1 :=
  unknown_disease_single_fallback "banana_wilt" (by decide)

/-! ## Ranking helper lemmas -/

/-- `argsortAsc` is a permutation of the index range. -/
theorem argsortAsc_perm (s : List ℚ) : List.Perm (argsortAsc s) (List.range s.length) :=
  List.perm_insertionSort _ _

/-- `argsortAsc` is sorted for the stable ascending index order. -/
theorem argsortAsc_sorted (s : List ℚ) : List.Sorted (idxLe s) (argsortAsc s) :=
  List.sorted_insertionSort _ _

/-- Membership in `argsortAsc` is exactly index-validity. -/
theorem mem_argsortAsc {s : List ℚ} {i : Nat} : i ∈ argsortAsc s ↔ i < s.length := by
  rw [(argsortAsc_perm s).mem_iff, List.mem_range]

/-- `argsortAsc` has no duplicate indices. -/
theorem argsortAsc_nodup (s : List ℚ) : (argsortAsc s).Nodup :=
  ((argsortAsc_perm s).nodup_iff).mpr (List.nodup_range _)

/-- `argsortAsc` has one entry per score. -/
theorem argsortAsc_length (s : List ℚ) : (argsortAsc s).length = s.length := by
  rw [(argsortAsc_perm s).length_eq, List.length_range]

/-- Every ranked index is a valid score index. -/
theorem mem_topIndices {s : List ℚ} {i : Nat} (h : i ∈ topIndices s) : i < s.length := by
  unfold topIndices at h
  rw [List.mem_reverse] at h
  exact mem_argsortAsc.mp (List.drop_subset _ _ h)

/-- A nonempty score vector yields a nonempty ranking. -/
theorem topIndices_ne_nil {s : List ℚ} (h : s ≠ []) : topIndices s ≠ [] := by
  have hpos : 0 < s.length := List.length_pos.mpr h
  have hlen : 0 < (topIndices s).length := by
    unfold topIndices
    rw [List.length_reverse, List.length_drop, argsortAsc_length]
    omega
  exact List.ne_nil_of_length_pos hlen

/-- The ranking has no duplicate indices. -/
theorem topIndices_nodup (s : List ℚ) : (topIndices s).Nodup := by
  unfold topIndices
  rw [List.nodup_reverse]
  exact (argsortAsc_nodup s).sublist (List.drop_sublist _ _)

/-- The ranking is pairwise non-ascending for the stable index order. -/
theorem topIndices_pairwise (s : List ℚ) :
    List.Pairwise (fun i j => idxLe s j i) (topIndices s) := by
  unfold topIndices
  rw [List.pairwise_reverse]
  exact ((argsortAsc_sorted s).sublist (List.drop_sublist _ _))

/-- `val` agrees with list indexing on valid indices. -/
theorem val_eq_getElem {s : List ℚ} {i : Nat} (h : i < s.length) : val s i = s[i] :=
  List.getD_eq_getElem s 0 h

/-- Every nonempty list of rationals has a maximal element. -/
theorem exists_max_elem (l : List ℚ) (h : l ≠ []) : ∃ x ∈ l, ∀ y ∈ l, y ≤ x := by
  induction l with
  | nil => exact absurd rfl h
  | cons a t ih =>
    rcases eq_or_ne t [] with rfl | ht
    · exact ⟨a, List.mem_singleton_self a, by simp⟩
    · obtain ⟨x, hx, hmax⟩ := ih ht
      rcases le_total a x with hax | hxa
      · refine ⟨x, List.mem_cons_of_mem a hx, ?_⟩
        intro y hy
        rcases List.mem_cons.mp hy with rfl | hy
        · exact hax
        · exact hmax y hy
      · refine ⟨a, List.mem_cons_self a t, ?_⟩
        intro y hy
        rcases List.mem_cons.mp hy with rfl | hy
        · exact le_refl y
        · exact (hmax y hy).trans hxa

/-- `argmax` returns a valid index on nonempty input. -/
theorem argmax_lt_length {s : List ℚ} (h : s ≠ []) : argmax s < s.length := by
  obtain ⟨x, hx, hmax⟩ := exists_max_elem s h
  exact List.findIdx_lt_length_of_exists
    ⟨x, hx, (List.all_eq_true).mpr (fun y hy => decide_eq_true (hmax y hy))⟩

/-- `argmax` attains the maximum value. -/
theorem val_le_argmax {s : List ℚ} (hne : s ≠ []) {j : Nat} (hj : j < s.length) :
    val s j ≤ val s (argmax s) := by
  have hlt : s.findIdx (fun x => s.all (fun y => decide (y ≤ x))) < s.length :=
    argmax_lt_length hne
  have hp := List.findIdx_getElem (w := hlt)
  rw [List.all_eq_true] at hp
  have := hp (s.getD j 0) (by rw [List.getD_eq_getElem s 0 hj]; exact List.getElem_mem hj)
  rw [decide_eq_true_eq] at this
  rw [val_eq_getElem (argmax_lt_length hne)]
  exact this

/-- Every element of `argsortAsc` is below its last entry in the stable
index order. -/
theorem idxLe_getLast {s : List ℚ} (ha : argsortAsc s ≠ []) {i : Nat}
    (hi : i ∈ argsortAsc s) : idxLe s i ((argsortAsc s).getLast ha) := by
  obtain ⟨k, hget⟩ := List.mem_iff_get.mp hi
  have hlen : (argsortAsc s).length - 1 < (argsortAsc s).length := by
    have := List.length_pos.mpr ha
    omega
  have hlast : (argsortAsc s).getLast ha = (argsortAsc s).get ⟨(argsortAsc s).length - 1, hlen⟩ := by
    rw [List.getLast_eq_getElem]
    rfl
  rcases lt_or_eq_of_le (Nat.le_sub_one_of_lt k.isLt) with hk | hk
  · rw [← hget, hlast]
    exact (argsortAsc_sorted s).rel_get_of_lt hk
  · rw [← hget, hlast]
    have : k = (⟨(argsortAsc s).length - 1, hlen⟩ : Fin (argsortAsc s).length) := Fin.ext hk
    rw [this]
    exact Or.inr ⟨rfl, le_refl _⟩

/-- `argsortAsc` of a nonempty vector is nonempty. -/
theorem argsortAsc_ne_nil {s : List ℚ} (h : s ≠ []) : argsortAsc s ≠ [] := by
  have := List.length_pos.mpr h
  exact List.ne_nil_of_length_pos (by rw [argsortAsc_length]; omega)

/-- With a unique maximum, the last entry of the ascending argsort is
`argmax`. -/
theorem getLast_argsortAsc_eq_argmax {s : List ℚ} (hne : s ≠ [])
    (huniq : ∀ j ∈ List.range s.length,
      j ≠ argmax s → val s j < val s (argmax s)) :
    (argsortAsc s).getLast (argsortAsc_ne_nil hne) = argmax s := by
  set L := (argsortAsc s).getLast (argsortAsc_ne_nil hne) with hL
  have hmem : L ∈ argsortAsc s := List.getLast_mem _
  have hLlt : L < s.length := mem_argsortAsc.mp hmem
  by_contra hne'
  have h1 : val s L < val s (argmax s) := huniq L (List.mem_range.mpr hLlt) hne'
  have h2 : idxLe s (argmax s) L :=
    idxLe_getLast _ (mem_argsortAsc.mpr (argmax_lt_length hne))
  rcases h2 with h2 | ⟨h2, _⟩
  · exact absurd (h2.trans h1) (lt_irrefl _)
  · rw [← h2] at h1
    exact absurd h1 (lt_irrefl _)

/-- The first ranked index is the last entry of the ascending argsort. -/
theorem topIndices_head (s : List ℚ) (hne : s ≠ []) :
    (topIndices s).head? = some ((argsortAsc s).getLast (argsortAsc_ne_nil hne)) := by
  unfold topIndices
  rw [List.head?_reverse]
  have hd : (argsortAsc s).drop ((argsortAsc s).length - 3) ≠ [] := by
    have hpos : 0 < s.length := List.length_pos.mpr hne
    refine List.ne_nil_of_length_pos ?_
    rw [List.length_drop, argsortAsc_length]
    omega
  rw [show (argsortAsc s).drop ((argsortAsc s).length - 3) =
        ((argsortAsc s).take ((argsortAsc s).length - 3) ++
          (argsortAsc s).drop ((argsortAsc s).length - 3)).drop
            ((argsortAsc s).length - 3) from by rw [List.take_append_drop]]
  rw [List.take_append_drop]
  rw [← List.getLast?_append_of_ne_nil (List.take ((argsortAsc s).length - 3) (argsortAsc s)) hd]
  rw [List.take_append_drop]
  exact List.getLast?_eq_getLast _ _

/-- `get?` on a valid index returns the defaulted read. -/
theorem get?_eq_some_getD (l : List String) (i : Nat) (h : i < l.length) :
    l.get? i = some (l.getD i "") := by
  rw [List.getD_eq_getElem l "" h, List.get?_eq_getElem?]
  exact List.getElem?_eq_getElem h

/-- Shape of a successful `predict` run: with a loaded model, a nonempty score
vector and a label list aligned with it, `predict` returns the assembled
result record. -/
theorem predict_ok (interp : Img → List ℚ) (labels : List String) (image : Img)
    (now : ℚ) (scores : List ℚ) (hsc : interp image = scores) (hne : scores ≠ [])
    (hlen : labels.length = scores.length) :
    predict ⟨some interp, labels⟩ image now = Except.ok
      { disease_name := labels.getD (argmax scores) ""
        confidence := val scores (argmax scores)
        severity := estimate_severity image (labels.getD (argmax scores) "")
          (val scores (argmax scores))
        top_predictions := (topIndices scores).enum.map
          (fun p => { disease := labels.getD p.2 ""
                      confidence := val scores p.2
                      rank := p.1 + 1 })
        recommendations := get_treatment_recommendations (labels.getD (argmax scores) "")
        similar_cases := find_similar_cases (labels.getD (argmax scores) "") 5
        timestamp := now } := by
  have hb : ∀ i ∈ topIndices scores, i < labels.length := fun i hi => by
    rw [hlen]; exact mem_topIndices hi
  have htop : topEntries labels scores = some ((topIndices scores).enum.map
      (fun p => { disease := labels.getD p.2 ""
                  confidence := val scores p.2
                  rank := p.1 + 1 })) := by
    unfold topEntries
    rw [dif_pos hb]
  have hget : labels.get? (argmax scores) = some (labels.getD (argmax scores) "") :=
    get?_eq_some_getD labels _ (by rw [hlen]; exact argmax_lt_length hne)
  unfold predict
  dsimp only
  rw [hsc, List.isEmpty_eq_false.mpr hne, hget, htop]
  rfl

/-! ## Claims about the model adapter -/

/-- C3 counterexample: a predictor holding a loaded model but an **empty**
label list is not ready, yet `predict` on it fails with the `IndexError` from
`self.labels[top_index]`, not with the model-not-loaded `ValueError`: the
guard in `predict` tests only `self.model is None`. -/
theorem predict_empty_labels_cex :
    predict ⟨some (fun _ => [(1 : ℚ)]), []⟩ [] 0 =
      Except.error PredictError.labelIndexError ∧
    (Except.error PredictError.labelIndexError :
        Except PredictError PredictResult) ≠
      Except.error PredictError.modelNotLoaded ∧
    is_ready ⟨some (fun _ => [(1 : ℚ)]), []⟩ = false := by
  refine ⟨rfl, ?_, rfl⟩
  intro h
  exact PredictError.noConfusion (Except.error.inj h)

/-- C3 (amended): `predict` fails with the model-not-loaded error when the
model is absent (that is the only condition its guard checks), while
`is_ready` is false exactly when the model is absent **or** the label list is
empty; in the model-present/labels-empty state `predict` still fails, but
with an index error instead of the model-not-loaded error. -/
theorem not_loaded_spec (p : DiseasePredictor) (image : Img) (now : ℚ) :
    (p.model = none → predict p image now = Except.error PredictError.modelNotLoaded) ∧
    (is_ready p = false ↔ (p.model = none ∨ p.labels = [])) := by
  obtain ⟨m, labels⟩ := p
  constructor
  · rintro rfl
    rfl
  · cases m with
    | none => simp [is_ready]
    | some interp =>
      cases labels with
      | nil => simp [is_ready]
      | cons a t => simp [is_ready]

/-- C3 witness: the freshly-constructed state (no model, no labels) gets the
model-not-loaded error and reports not ready. -/
theorem not_loaded_spec_witness :
    predict ⟨none, []⟩ [] 0 = Except.error PredictError.modelNotLoaded ∧
    is_ready ⟨none, []⟩ = false :=
  ⟨(not_loaded_spec ⟨none, []⟩ [] 0).1 rfl,
   (not_loaded_spec ⟨none, []⟩ [] 0).2.mpr (Or.inl rfl)⟩

/-- C4 counterexample: with the two labels `"a"`, `"b"` tied at score 1,
`disease_name` is `"a"` (`np.argmax` returns the first maximal index) while
the rank-1 entry of `top_predictions` is `"b"` (the ascending argsort keeps
tied indices in index order, and the reversal puts the **last** tied index
first) — the top-1 field and the rank-1 entry of the top-3 view disagree. -/
theorem top1_tie_mismatch_cex :
    (predict ⟨some (fun _ => [(1 : ℚ), 1]), ["a", "b"]⟩ [] 0).toOption.map
        (fun r => (r.disease_name, r.top_predictions.map (fun e => (e.disease, e.rank)))) =
      some ("a", [("b", 1), ("a", 2)]) ∧
    (predict ⟨some (fun _ => [(1 : ℚ), 1]), ["a", "b"]⟩ [] 0).toOption.map
        (fun r => decide (r.top_predictions.head?.map TopPred.disease =
          some r.disease_name)) =
      some false := by
  constructor
  · decide
  · decide

/-- C4 (amended): whenever the maximal score is attained at a **unique**
index, the `disease_name` and `confidence` fields of the `predict` result
equal the label and confidence of the rank-1 entry of its `top_predictions`
(both views then come from the same maximal index); with a tie at the
maximum the two labels can differ, as the counterexample shows. -/
theorem top1_agrees_when_unique_max
    (interp : Img → List ℚ) (labels : List String) (image : Img) (now : ℚ)
    (scores : List ℚ) (hsc : interp image = scores)
    (hne : scores ≠ [])
    (hlen : labels.length = scores.length)
    (huniq : ∀ j ∈ List.range scores.length,
      j ≠ argmax scores → val scores j < val scores (argmax scores)) :
    ∃ r e, predict ⟨some interp, labels⟩ image now = Except.ok r ∧
      r.top_predictions.head? = some e ∧
      e.disease = r.disease_name ∧ e.confidence = r.confidence ∧ e.rank = 1 := by
  obtain ⟨t0, ts, ht⟩ := List.exists_cons_of_ne_nil (topIndices_ne_nil hne)
  have ht0 : t0 = argmax scores := by
    have h1 := topIndices_head scores hne
    rw [ht] at h1
    simp only [List.head?_cons, Option.some.injEq] at h1
    rw [h1, getLast_argsortAsc_eq_argmax hne huniq]
  refine ⟨_, ⟨labels.getD (argmax scores) "", val scores (argmax scores), 1⟩,
    predict_ok interp labels image now scores hsc hne hlen, ?_, rfl, rfl, rfl⟩
  rw [ht, ← ht0]
  rfl

/-- C4 witness: scores `[1/2, 1]` have the unique maximum at index 1; top-1
fields and the rank-1 entry agree there. -/
theorem top1_agrees_when_unique_max_witness :
    ∃ r e, predict ⟨some (fun _ => [mkRat 1 2, 1]), ["a", "b"]⟩ [] 0 = Except.ok r ∧
      r.top_predictions.head? = some e ∧
      e.disease = r.disease_name ∧ e.confidence = r.confidence ∧ e.rank = 1 :=
  top1_agrees_when_unique_max (fun _ => [mkRat 1 2, 1]) ["a", "b"] [] 0
    [mkRat 1 2, 1] rfl (by decide) (by decide) (by decide)

/-- C5 counterexample: with labels `"a"` (index 0) and `"b"` (index 1) tied
at score 1, the ranking places index 1 at rank 1 and index 0 at rank 2 — the
**higher** index gets the better rank, contradicting the claimed
lower-index-first tie-break.  (On a 2-element vector `np.argsort` runs its
stable insertion sort, so this trace is the program's actual behaviour.) -/
theorem tie_rank_order_cex :
    (predict ⟨some (fun _ => [(1 : ℚ), 1]), ["a", "b"]⟩ [] 0).toOption.map
        (fun r => r.top_predictions.map (fun e => (e.disease, e.confidence, e.rank))) =
      some [("b", (1 : ℚ), 1), ("a", 1, 2)] ∧
    topIndices [(1 : ℚ), 1] = [1, 0] := by
  constructor
  · decide
  · decide

/-- C5 (amended): the lower-index-first tie rule is refuted (see the
counterexample); numpy's default sort guarantees no order between tied
scores on the deployed 38-class vectors, so no universal tie rule is a
property of the program.  What the ranking does guarantee, under any correct
ascending argsort and hence independently of tie order: it is a
deterministic pure function of the score vector whose indices appear in
non-increasing score order, and the rank-1 index always attains the maximal
score. -/
theorem topIndices_score_ordered (s : List ℚ) (hne : s ≠ []) :
    (∀ k₁ k₂ (h12 : k₁ < k₂) (h2 : k₂ < (topIndices s).length),
      val s ((topIndices s).get ⟨k₂, h2⟩) ≤
        val s ((topIndices s).get ⟨k₁, h12.trans h2⟩)) ∧
    ∃ i, (topIndices s).head? = some i ∧ ∀ j, j < s.length → val s j ≤ val s i := by
  constructor
  · intro k₁ k₂ h12 h2
    have hpw := topIndices_pairwise s
    rw [List.pairwise_iff_get] at hpw
    rcases hpw ⟨k₁, h12.trans h2⟩ ⟨k₂, h2⟩ h12 with hlt | ⟨hv, _⟩
    · exact le_of_lt hlt
    · exact le_of_eq hv
  · refine ⟨(argsortAsc s).getLast (argsortAsc_ne_nil hne), topIndices_head s hne, ?_⟩
    intro j hj
    rcases idxLe_getLast (argsortAsc_ne_nil hne) (mem_argsortAsc.mpr hj)
      with h | ⟨h, _⟩
    · exact le_of_lt h
    · exact le_of_eq h

/-- C5 witness: on the vector `[1/2, 1]` the rank-2 score is at most the
rank-1 score. -/
theorem topIndices_score_ordered_witness :
    val [mkRat 1 2, (1 : ℚ)] ((topIndices [mkRat 1 2, 1]).get ⟨1, by decide⟩) ≤
      val [mkRat 1 2, 1] ((topIndices [mkRat 1 2, 1]).get ⟨0, by decide⟩) :=
  (topIndices_score_ordered [mkRat 1 2, 1] (by decide)).1 0 1 (by decide) (by decide)

/-- C6: for every score vector produced by the (softmax-headed) model — i.e.
every score in `[0, 1]` — the `top_predictions` list of a successful
`predict` has all confidences in `[0, 1]`, and it is sorted non-increasingly
by confidence (the code copies model scores into the entries unclamped, and
orders them by the descending argsort). -/
theorem top_predictions_bounds_sorted
    (interp : Img → List ℚ) (labels : List String) (image : Img) (now : ℚ)
    (scores : List ℚ) (hsc : interp image = scores)
    (hne : scores ≠ [])
    (hlen : labels.length = scores.length)
    (hrange : ∀ x ∈ scores, 0 ≤ x ∧ x ≤ 1) :
    ∃ r, predict ⟨some interp, labels⟩ image now = Except.ok r ∧
      (∀ e ∈ r.top_predictions, 0 ≤ e.confidence ∧ e.confidence ≤ 1) ∧
      List.Pairwise (fun x y => y ≤ x) (r.top_predictions.map TopPred.confidence) := by
  refine ⟨_, predict_ok interp labels image now scores hsc hne hlen, ?_, ?_⟩
  · intro e he
    rw [List.mem_map] at he
    obtain ⟨p, hp, rfl⟩ := he
    have hsnd : p.2 ∈ topIndices scores := by
      have := List.mem_map_of_mem Prod.snd hp
      rwa [List.enum_map_snd] at this
    have hlt := mem_topIndices hsnd
    refine hrange _ ?_
    rw [val_eq_getElem hlt]
    exact List.getElem_mem hlt
  · have hmapeq : (((topIndices scores).enum.map
        (fun p => ({ disease := labels.getD p.2 ""
                     confidence := val scores p.2
                     rank := p.1 + 1 } : TopPred))).map TopPred.confidence)
        = (topIndices scores).map (val scores) := by
      rw [List.map_map]
      rw [show (TopPred.confidence ∘ fun p : Nat × Nat =>
          ({ disease := labels.getD p.2 ""
             confidence := val scores p.2
             rank := p.1 + 1 } : TopPred)) = (val scores) ∘ Prod.snd from rfl]
      rw [← List.map_map, List.enum_map_snd]
    rw [hmapeq, List.pairwise_map]
    refine (topIndices_pairwise scores).imp (fun h => ?_)
    rcases h with h | ⟨h, _⟩
    · exact le_of_lt h
    · exact le_of_eq h

/-- C6 witness: scores `[1/2, 1/4]` (both in `[0,1]`) give entries with
confidences in `[0,1]`, sorted non-increasingly. -/
theorem top_predictions_bounds_sorted_witness :
    ∃ r, predict ⟨some (fun _ => [mkRat 1 2, mkRat 1 4]), ["a", "b"]⟩ [] 0 = Except.ok r ∧
      (∀ e ∈ r.top_predictions, 0 ≤ e.confidence ∧ e.confidence ≤ 1) ∧
      List.Pairwise (fun x y => y ≤ x) (r.top_predictions.map TopPred.confidence) :=
  top_predictions_bounds_sorted (fun _ => [mkRat 1 2, mkRat 1 4]) ["a", "b"] [] 0
    [mkRat 1 2, mkRat 1 4] rfl (by decide) (by decide) (by decide)

/-! ## Grid lemmas for the background-removal claims -/

/-- `remove_background` is the saturating composite of the masked foliage and
the mask-complement white background. -/
theorem remove_background_eq (image : Img) :
    remove_background image =
      cvAdd (maskedCopy image (foliageMask image))
        (maskedCopy (whiteLike image) (bitwiseNot (foliageMask image))) := rfl

/-- The head with default is the defaulted first element. -/
theorem headD_eq_getD_zero {α : Type} (l : List α) (d : α) : l.headD d = l.getD 0 d := by
  cases l <;> rfl

/-- A built grid has the requested number of rows. -/
theorem length_gridOf {α : Type} (h w : Nat) (f : Nat → Nat → α) :
    (gridOf h w f).length = h := by
  simp [gridOf]

/-- Rows of a built grid. -/
theorem getD_gridOf_row {α : Type} {h : Nat} (w : Nat) (f : Nat → Nat → α) {r : Nat}
    (hr : r < h) : (gridOf h w f).getD r [] = (List.range w).map (f r) := by
  unfold gridOf
  rw [List.getD_eq_getElem _ _ (by simpa using hr), List.getElem_map, List.getElem_range]

/-- Rows of a built grid have the requested number of columns. -/
theorem row_length_gridOf {α : Type} {h : Nat} (w : Nat) (f : Nat → Nat → α) {r : Nat}
    (hr : r < h) : ((gridOf h w f).getD r []).length = w := by
  rw [getD_gridOf_row w f hr, List.length_map, List.length_range]

/-- A nonempty built grid has the requested width. -/
theorem gridWidth_gridOf {α : Type} {h : Nat} (w : Nat) (f : Nat → Nat → α)
    (hh : 0 < h) : gridWidth (gridOf h w f) = w := by
  unfold gridWidth
  rw [headD_eq_getD_zero, row_length_gridOf w f hh]

/-- In-bounds pixel reads of a built grid. -/
theorem pget_gridOf {h w : Nat} (f : Nat → Nat → Pix) {r c : Nat}
    (hr : r < h) (hc : c < w) : pget (gridOf h w f) r c = f r c := by
  unfold pget
  rw [getD_gridOf_row w f hr,
    List.getD_eq_getElem _ _ (by simpa using hc), List.getElem_map, List.getElem_range]

/-- Reads below the last row default to black. -/
theorem pget_gridOf_row_ge {h w : Nat} (f : Nat → Nat → Pix) {r : Nat} (c : Nat)
    (hr : h ≤ r) : pget (gridOf h w f) r c = (0, 0, 0) := by
  unfold pget
  rw [List.getD_eq_default (gridOf h w f) [] (by rw [length_gridOf]; omega)]
  rfl

/-- Reads beyond the last column default to black. -/
theorem pget_gridOf_col_ge {h w : Nat} (f : Nat → Nat → Pix) {r c : Nat}
    (hc : w ≤ c) : pget (gridOf h w f) r c = (0, 0, 0) := by
  unfold pget
  by_cases hr : r < h
  · rw [getD_gridOf_row w f hr, List.getD_eq_default]
    rw [List.length_map, List.length_range]
    omega
  · rw [List.getD_eq_default (gridOf h w f) [] (by rw [length_gridOf]; omega)]
    rfl

/-- A grid read is either the entry function or the black default. -/
theorem pget_gridOf_cases {h w : Nat} (f : Nat → Nat → Pix) (r c : Nat) :
    pget (gridOf h w f) r c = f r c ∨ pget (gridOf h w f) r c = (0, 0, 0) := by
  by_cases hr : r < h
  · by_cases hc : c < w
    · exact Or.inl (pget_gridOf f hr hc)
    · exact Or.inr (pget_gridOf_col_ge f (by omega))
  · exact Or.inr (pget_gridOf_row_ge f c (by omega))

/-- Rows of a pixelwise-mapped grid. -/
theorem getD_mapmap {α β : Type} (g : α → β) (l : List (List α)) (r : Nat) :
    (l.map (List.map g)).getD r [] = (l.getD r []).map g := by
  by_cases hr : r < l.length
  · rw [List.getD_eq_getElem _ _ (by simpa using hr), List.getD_eq_getElem _ _ hr,
      List.getElem_map]
  · rw [List.getD_eq_default _ _ (by rw [List.length_map]; omega),
      List.getD_eq_default _ _ (by omega)]
    rfl

/-- Pixelwise mapping preserves the grid width. -/
theorem gridWidth_mapmap {α β : Type} (g : α → β) (l : List (List α)) :
    gridWidth (l.map (List.map g)) = gridWidth l := by
  cases l with
  | nil => rfl
  | cons a t => simp [gridWidth]

/-- In-bounds mask reads (row and entry both present) ignore the border
default. -/
theorem mget_in_bounds (m : Mask) (d : Nat) {r c : Nat} (hr : r < m.length)
    (hc : c < (m.getD r []).length) :
    mget m d (r : Int) (c : Int) = (m.getD r []).getD c 0 := by
  unfold mget
  rw [if_pos ⟨by omega, by omega⟩]
  have hr' : ((r : Int)).toNat = r := rfl
  have hc' : ((c : Int)).toNat = c := rfl
  rw [hr', hc', List.getD_eq_getElem (m.getD r []) d hc,
    List.getD_eq_getElem (m.getD r []) 0 hc]

/-- In-bounds reads of the complement mask. -/
theorem mget_bitwiseNot_in (m : Mask) {r c : Nat} (hr : r < m.length)
    (hc : c < (m.getD r []).length) :
    mget (bitwiseNot m) 0 (r : Int) (c : Int) = 255 - mget m 0 (r : Int) (c : Int) := by
  have hr2 : r < (bitwiseNot m).length := by
    unfold bitwiseNot; rw [List.length_map]; omega
  have hrow : (bitwiseNot m).getD r [] = (m.getD r []).map (fun x => 255 - x) :=
    getD_mapmap _ m r
  have hc2 : c < ((bitwiseNot m).getD r []).length := by
    rw [hrow, List.length_map]; omega
  rw [mget_in_bounds (bitwiseNot m) 0 hr2 hc2, mget_in_bounds m 0 hr hc]
  rw [hrow, List.getD_eq_getElem _ 0 (by rw [List.length_map]; omega),
    List.getD_eq_getElem _ 0 hc, List.getElem_map]

/-- All entries of a uint8 mask produced by `cv2.inRange` and the
morphological operators are 0 or 255. -/
def maskBinary (m : Mask) : Prop := ∀ row ∈ m, ∀ x ∈ row, x = 0 ∨ x = 255

/-- A left fold of `Nat.max` over 0/255 values stays in 0/255. -/
theorem foldl_max_binary {l : List Nat} {a : Nat} (ha : a = 0 ∨ a = 255)
    (hl : ∀ x ∈ l, x = 0 ∨ x = 255) :
    l.foldl Nat.max a = 0 ∨ l.foldl Nat.max a = 255 := by
  induction l generalizing a with
  | nil => exact ha
  | cons x t ih =>
    have hx := hl x (List.mem_cons_self _ _)
    refine ih ?_ (fun y hy => hl y (List.mem_cons_of_mem _ hy))
    rcases ha with rfl | rfl <;> rcases hx with rfl | rfl <;> decide

/-- A left fold of `Nat.min` over 0/255 values stays in 0/255. -/
theorem foldl_min_binary {l : List Nat} {a : Nat} (ha : a = 0 ∨ a = 255)
    (hl : ∀ x ∈ l, x = 0 ∨ x = 255) :
    l.foldl Nat.min a = 0 ∨ l.foldl Nat.min a = 255 := by
  induction l generalizing a with
  | nil => exact ha
  | cons x t ih =>
    have hx := hl x (List.mem_cons_self _ _)
    refine ih ?_ (fun y hy => hl y (List.mem_cons_of_mem _ hy))
    rcases ha with rfl | rfl <;> rcases hx with rfl | rfl <;> decide

/-- `cv2.inRange` output masks are 0/255-valued. -/
theorem maskBinary_cvInRange (img : Img) (lo hi : Pix) :
    maskBinary (cvInRange img lo hi) := by
  intro row hrow x hx
  obtain ⟨row', _, rfl⟩ := List.mem_map.mp hrow
  obtain ⟨p, _, rfl⟩ := List.mem_map.mp hx
  unfold inRangePix
  split
  · exact Or.inr rfl
  · exact Or.inl rfl

/-- Any mask read (entry or border default) of a 0/255 mask with a 0/255
default is 0 or 255. -/
theorem mget_binary {m : Mask} (hm : maskBinary m) {d : Nat} (hd : d = 0 ∨ d = 255)
    (r c : Int) : mget m d r c = 0 ∨ mget m d r c = 255 := by
  unfold mget
  split
  · rw [List.getD_eq_getElem?_getD m r.toNat []]
    rcases hrow : m[r.toNat]? with _ | row
    · simp only [Option.getD_none]
      simpa using hd
    · simp only [Option.getD_some]
      rw [List.getD_eq_getElem?_getD row c.toNat d]
      rcases hx : row[c.toNat]? with _ | x
      · simpa using hd
      · simp only [Option.getD_some]
        exact hm row (List.getElem?_mem hrow) x (List.getElem?_mem hx)
  · exact hd

/-- Kernel window samples of a 0/255 mask with a 0/255 border are 0/255. -/
theorem windowVals_binary {m : Mask} (hm : maskBinary m) {d : Nat}
    (hd : d = 0 ∨ d = 255) (r c : Nat) :
    ∀ x ∈ windowVals m d r c, x = 0 ∨ x = 255 := by
  intro x hx
  unfold windowVals at hx
  obtain ⟨dr, _, hx⟩ := List.exists_of_mem_flatMap hx
  obtain ⟨dc, _, rfl⟩ := List.mem_map.mp hx
  exact mget_binary hm hd _ _

/-- Dilation preserves 0/255-valuedness. -/
theorem maskBinary_cvDilate {m : Mask} (hm : maskBinary m) :
    maskBinary (cvDilate m) := by
  intro row hrow x hx
  unfold cvDilate gridOf at hrow
  obtain ⟨r, _, rfl⟩ := List.mem_map.mp hrow
  obtain ⟨c, _, rfl⟩ := List.mem_map.mp hx
  exact foldl_max_binary (Or.inl rfl) (windowVals_binary hm (Or.inl rfl) r c)

/-- Erosion preserves 0/255-valuedness. -/
theorem maskBinary_cvErode {m : Mask} (hm : maskBinary m) :
    maskBinary (cvErode m) := by
  intro row hrow x hx
  unfold cvErode gridOf at hrow
  obtain ⟨r, _, rfl⟩ := List.mem_map.mp hrow
  obtain ⟨c, _, rfl⟩ := List.mem_map.mp hx
  exact foldl_min_binary (Or.inr rfl) (windowVals_binary hm (Or.inr rfl) r c)

/-- The foliage mask is 0/255-valued. -/
theorem maskBinary_foliageMask (X : Img) : maskBinary (foliageMask X) :=
  maskBinary_cvDilate (maskBinary_cvErode (maskBinary_cvErode
    (maskBinary_cvDilate (maskBinary_cvInRange _ _ _))))

/-- Dilation preserves the number of rows. -/
theorem length_cvDilate (m : Mask) : (cvDilate m).length = m.length :=
  length_gridOf _ _ _

/-- Erosion preserves the number of rows. -/
theorem length_cvErode (m : Mask) : (cvErode m).length = m.length :=
  length_gridOf _ _ _

/-- The foliage mask has one row per image row. -/
theorem length_foliageMask (X : Img) : (foliageMask X).length = X.length := by
  unfold foliageMask morphOpen morphClose cvInRange cvtColorRGB2HSV
  rw [length_cvDilate, length_cvErode, length_cvErode, length_cvDilate,
    List.length_map, List.length_map]

/-- Dilation of a nonempty mask preserves the width. -/
theorem gridWidth_cvDilate (m : Mask) (hm : 0 < m.length) :
    gridWidth (cvDilate m) = gridWidth m :=
  gridWidth_gridOf _ _ hm

/-- Erosion of a nonempty mask preserves the width. -/
theorem gridWidth_cvErode (m : Mask) (hm : 0 < m.length) :
    gridWidth (cvErode m) = gridWidth m :=
  gridWidth_gridOf _ _ hm

/-- The foliage mask of a nonempty image has the image's width. -/
theorem gridWidth_foliageMask (X : Img) (hX : 0 < X.length) :
    gridWidth (foliageMask X) = gridWidth X := by
  unfold foliageMask morphOpen morphClose
  have h0 : (cvInRange (cvtColorRGB2HSV X) lower_green upper_green).length = X.length := by
    unfold cvInRange cvtColorRGB2HSV
    rw [List.length_map, List.length_map]
  have h1 : (cvDilate (cvInRange (cvtColorRGB2HSV X) lower_green upper_green)).length
      = X.length := by rw [length_cvDilate, h0]
  have h2 : (cvErode (cvDilate (cvInRange (cvtColorRGB2HSV X) lower_green
      upper_green))).length = X.length := by rw [length_cvErode, h1]
  have h3 : (cvErode (cvErode (cvDilate (cvInRange (cvtColorRGB2HSV X) lower_green
      upper_green)))).length = X.length := by rw [length_cvErode, h2]
  rw [gridWidth_cvDilate _ (by omega), gridWidth_cvErode _ (by omega),
    gridWidth_cvErode _ (by omega), gridWidth_cvDilate _ (by omega)]
  unfold cvInRange cvtColorRGB2HSV
  rw [gridWidth_mapmap, gridWidth_mapmap]

/-- Rows of the foliage mask of a nonempty image have the image's width. -/
theorem row_length_foliageMask (X : Img) {r : Nat} (hr : r < X.length) :
    ((foliageMask X).getD r []).length = gridWidth X := by
  have h3 : (cvErode (cvErode (cvDilate (cvInRange (cvtColorRGB2HSV X) lower_green
      upper_green)))).length = X.length := by
    unfold cvInRange cvtColorRGB2HSV
    rw [length_cvErode, length_cvErode, length_cvDilate, List.length_map, List.length_map]
  have hw : gridWidth (cvErode (cvErode (cvDilate (cvInRange (cvtColorRGB2HSV X)
      lower_green upper_green)))) = gridWidth X := by
    have h0 : (cvInRange (cvtColorRGB2HSV X) lower_green upper_green).length = X.length := by
      unfold cvInRange cvtColorRGB2HSV
      rw [List.length_map, List.length_map]
    have h1 : (cvDilate (cvInRange (cvtColorRGB2HSV X) lower_green
        upper_green)).length = X.length := by rw [length_cvDilate, h0]
    have h2 : (cvErode (cvDilate (cvInRange (cvtColorRGB2HSV X) lower_green
        upper_green))).length = X.length := by rw [length_cvErode, h1]
    rw [gridWidth_cvErode _ (by omega), gridWidth_cvErode _ (by omega),
      gridWidth_cvDilate _ (by omega)]
    unfold cvInRange cvtColorRGB2HSV
    rw [gridWidth_mapmap, gridWidth_mapmap]
  have hrowD : ∀ (m : Mask), r < m.length →
      ((cvDilate m).getD r []).length = gridWidth m := by
    intro m hm
    unfold cvDilate
    exact row_length_gridOf _ _ (by omega)
  unfold foliageMask morphOpen morphClose
  rw [hrowD _ (by rw [h3]; omega)]
  exact hw

/-- `remove_background` preserves the number of rows. -/
theorem length_remove_background (X : Img) :
    (remove_background X).length = X.length := by
  rw [remove_background_eq]
  unfold cvAdd maskedCopy
  rw [length_gridOf, length_gridOf]

/-- Rows of `remove_background` output have the input image's width: the
output is rectangular even when the input is ragged. -/
theorem row_length_remove_background (X : Img) {r : Nat} (hr : r < X.length) :
    ((remove_background X).getD r []).length = gridWidth X := by
  rw [remove_background_eq]
  unfold cvAdd
  rw [row_length_gridOf _ _ (by unfold maskedCopy; rw [length_gridOf]; omega)]
  unfold maskedCopy
  exact gridWidth_gridOf _ _ (by omega)

/-- `remove_background` of a nonempty image preserves the width. -/
theorem gridWidth_remove_background (X : Img) (hX : 0 < X.length) :
    gridWidth (remove_background X) = gridWidth X := by
  unfold gridWidth
  rw [headD_eq_getD_zero]
  exact row_length_remove_background X hX

/-- Reads past the rows of any image default to black. -/
theorem pget_len_le (X : Img) {r : Nat} (c : Nat) (hr : X.length ≤ r) :
    pget X r c = (0, 0, 0) := by
  unfold pget
  rw [List.getD_eq_default X [] hr]
  rfl

/-- Reads past a row's entries default to black. -/
theorem pget_row_le (X : Img) {r c : Nat} (hc : (X.getD r []).length ≤ c) :
    pget X r c = (0, 0, 0) :=
  List.getD_eq_default _ _ hc

/-- In-bounds reads of a masked copy. -/
theorem pget_maskedCopy_in (src : Img) (m : Mask) {r c : Nat}
    (hr : r < src.length) (hc : c < gridWidth src) :
    pget (maskedCopy src m) r c =
      if mget m 0 (r : Int) (c : Int) ≠ 0 then pget src r c else (0, 0, 0) := by
  unfold maskedCopy
  exact pget_gridOf _ hr hc

/-- In-bounds reads of the white image are white. -/
theorem pget_whiteLike_in (X : Img) {r c : Nat} (hr : r < X.length)
    (hc : c < (X.getD r []).length) :
    pget (whiteLike X) r c = (255, 255, 255) := by
  unfold pget whiteLike
  rw [getD_mapmap]
  rw [List.getD_eq_getElem _ _ (by rw [List.length_map]; omega), List.getElem_map]

/-- Every channel of a `remove_background` output pixel is at most 255. -/
theorem pget_remove_background_le (X : Img) (r c : Nat) :
    (pget (remove_background X) r c).1 ≤ 255 ∧
    (pget (remove_background X) r c).2.1 ≤ 255 ∧
    (pget (remove_background X) r c).2.2 ≤ 255 := by
  rw [remove_background_eq]
  unfold cvAdd
  rcases pget_gridOf_cases (h := (maskedCopy X (foliageMask X)).length)
      (w := gridWidth (maskedCopy X (foliageMask X))) _ r c with h | h <;> rw [h]
  · exact ⟨Nat.min_le_right _ _, Nat.min_le_right _ _, Nat.min_le_right _ _⟩
  · exact ⟨by decide, by decide, by decide⟩

/-! ## Claims about background removal -/

/-- C10 (amended): a second application of `remove_background` can only
whiten — each pixel of `remove_background (remove_background x)` equals the
corresponding pixel of `remove_background x` or is pure white `(255,255,255)`.
Full idempotence fails (see the counterexample): the second pass recomputes
the mask from the composited image, where pixels the opening discarded have
been whited out, so the closing can lose bridges and the mask can shrink. -/
theorem remove_background_second_pass_whitens (img : Img) (r c : Nat) :
    pget (remove_background (remove_background img)) r c
        = pget (remove_background img) r c ∨
    pget (remove_background (remove_background img)) r c = (255, 255, 255) := by
  set y := remove_background img with hy
  have hylen : y.length = img.length := by rw [hy]; exact length_remove_background img
  by_cases hr : r < y.length
  · have himg : 0 < img.length := by omega
    have hyrow : (y.getD r []).length = gridWidth y := by
      rw [hy, gridWidth_remove_background img himg]
      exact row_length_remove_background img (by omega)
    by_cases hc : c < gridWidth y
    · have hA_len : (maskedCopy y (foliageMask y)).length = y.length := by
        unfold maskedCopy
        exact length_gridOf _ _ _
      have hA_w : gridWidth (maskedCopy y (foliageMask y)) = gridWidth y := by
        unfold maskedCopy
        exact gridWidth_gridOf _ _ (by omega)
      rw [remove_background_eq y]
      unfold cvAdd
      rw [hA_len, hA_w, pget_gridOf _ hr hc, pget_maskedCopy_in y _ hr hc,
        pget_maskedCopy_in (whiteLike y) _
          (by unfold whiteLike; rw [List.length_map]; omega)
          (by unfold whiteLike; rw [gridWidth_mapmap]; omega),
        pget_whiteLike_in y hr (by omega)]
      have hrm : r < (foliageMask y).length := by rw [length_foliageMask]; omega
      have hcm : c < ((foliageMask y).getD r []).length := by
        rw [row_length_foliageMask y hr]
        omega
      have hnot := mget_bitwiseNot_in (foliageMask y) hrm hcm
      rcases mget_binary (maskBinary_foliageMask y) (Or.inl rfl) (r : Int) (c : Int)
        with hm0 | hm255
      · rw [hm0] at hnot ⊢
        rw [if_neg (by simp), hnot, if_pos (by omega)]
        right
        rfl
      · rw [hm255] at hnot ⊢
        rw [if_pos (by omega), hnot, if_neg (by omega)]
        left
        have hb := pget_remove_background_le img r c
        rw [← hy] at hb
        rcases hpy : pget y r c with ⟨p1, p2, p3⟩
        rw [hpy] at hb
        have hb1 : p1 ≤ 255 := hb.1
        have hb2 : p2 ≤ 255 := hb.2.1
        have hb3 : p3 ≤ 255 := hb.2.2
        show (Nat.min (p1 + 0) 255, Nat.min (p2 + 0) 255, Nat.min (p3 + 0) 255)
            = (p1, p2, p3)
        have e1 : Nat.min (p1 + 0) 255 = p1 := by
          rw [Nat.add_zero]
          exact Nat.min_eq_left hb1
        have e2 : Nat.min (p2 + 0) 255 = p2 := by
          rw [Nat.add_zero]
          exact Nat.min_eq_left hb2
        have e3 : Nat.min (p3 + 0) 255 = p3 := by
          rw [Nat.add_zero]
          exact Nat.min_eq_left hb3
        rw [e1, e2, e3]
    · left
      rw [pget_row_le (remove_background y)
          (by rw [row_length_remove_background y hr]; omega),
        pget_row_le y (by omega)]
  · left
    rw [pget_len_le (remove_background y) c
        (by rw [length_remove_background]; omega),
      pget_len_le y c (by omega)]

set_option maxRecDepth 100000

/-- A pure-red pixel (out of the green HSV range: its hue is 0). -/
def redPix : Pix := (255, 0, 0)

/-- A pure-green pixel (HSV `(60, 255, 255)`, inside the green range). -/
def greenPix : Pix := (0, 255, 0)

/-- A 4×6 test image: a green pixel in the top-left corner, an isolated green
speck at `(0, 4)`, and another at `(3, 2)`, on a red background.  On the first
pass the closing bridges the corner pixel with the speck at `(3, 2)` and the
opening keeps columns 0–2 while discarding the speck at `(0, 4)`; the speck's
pixel is whited out, so the second pass cannot rebuild the same mask, and the
mask collapses to empty — the second output is all white while the first
keeps columns 0–2. -/
def speckledLeafImg : Img :=
  [[greenPix, redPix, redPix, redPix, greenPix, redPix],
   [redPix, redPix, redPix, redPix, redPix, redPix],
   [redPix, redPix, redPix, redPix, redPix, redPix],
   [redPix, redPix, greenPix, redPix, redPix, redPix]]

/-- C10 counterexample: `remove_background` is not idempotent — applying it
twice to `speckledLeafImg` differs from applying it once (the first pass
keeps the red/green pixels of columns 0–2, the second pass whitens them). -/
theorem remove_background_not_idempotent_cex :
    remove_background (remove_background speckledLeafImg) ≠
      remove_background speckledLeafImg := by
  decide

/-- C10 amended witness: at pixel `(0, 1)` of the test image the second pass
yields the first-pass pixel or pure white. -/
theorem remove_background_second_pass_whitens_witness :
    pget (remove_background (remove_background speckledLeafImg)) 0 1
        = pget (remove_background speckledLeafImg) 0 1 ∨
    pget (remove_background (remove_background speckledLeafImg)) 0 1 = (255, 255, 255) :=
  remove_background_second_pass_whitens speckledLeafImg 0 1
